import Mathlib

/-!
Verification of the paper-trading core of the CryptoSniper repository.

The embedding translates, over exact rationals (`ℚ`) in place of Python
floats, the state and operations of:
  * `VirtualPortfolio` in `src/trading/paper_trading.py`
    (here the structure `Portfolio`; `execute_virtual_trade`,
    `_execute_buy`, `_execute_sell`, `_update_portfolio_value`),
  * `AutoTradingEngine` in `src/trading/signal_integration.py`
    (`EngineState`; `_should_auto_trade`, `_execute_auto_trade`,
    `_process_new_signals`), together with a small model of Python
    attribute lookup needed for the `stop_monitoring` name collision,
  * `SignalProcessor` in `src/trading/signal_processor.py`
    (`_make_trade_decision`, the SELL branch of `_execute_trade`).

Python dicts are modelled by association lists keyed by `String`: update
writes the key at the front and removes older bindings, which preserves
lookup semantics (iteration order differs from a Python dict, and no
property below depends on iteration order).  Timestamps, logging,
`trade_id` strings and file persistence are dropped: no verified property
mentions them.  Where Python would raise `ZeroDivisionError` inside a
`try` block, the embedding returns an explicit `zeroDivision` failure at
the same program point, with exactly the mutations already performed.
-/

namespace CryptoSniper

/-- Lookup in an association list, first binding wins (Python dict `get`). -/
def alookup {α : Type} : List (String × α) → String → Option α
  | [], _ => none
  | kv :: rest, s => if kv.1 = s then some kv.2 else alookup rest s

/-- Binding removal (Python `del d[s]`, plus dropping stale bindings on
key update). -/
def aerase {α : Type} : List (String × α) → String → List (String × α)
  | [], _ => []
  | kv :: rest, s =>
      if kv.1 = s then aerase rest s else kv :: aerase rest s

/-- Key update (Python dict assignment `d[s] = v`): the new binding is
placed in front and any older binding for the key is removed. -/
def aset {α : Type} (l : List (String × α)) (s : String) (v : α) :
    List (String × α) :=
  (s, v) :: aerase l s

/-! ## Ledger data model (`VirtualPortfolio`, src/trading/paper_trading.py) -/

/-- Signal kinds accepted by the system (`signal` / `signal_type` strings
in the source). -/
inductive SignalKind where
  | BUY | STRONG_BUY | SELL | AVOID | HOLD | WATCH
deriving DecidableEq, Repr

/-- Side of an executed trade (the `side` field of a trade record). -/
inductive Side where
  | BUY | SELL
deriving DecidableEq, Repr

/-- One entry of `VirtualPortfolio.positions`:
`{'quantity': float, 'avg_price': float, 'total_cost': float}`. -/
structure Position where
  quantity : ℚ
  avg_price : ℚ
  total_cost : ℚ
deriving DecidableEq, Repr

/-- A trade record appended to `trade_history` (timestamp, `signal_data`
and `trade_id` omitted; `pnl`, `pnl_percentage`, `remaining_position`
are present only on SELL records, hence `Option`). -/
structure TradeRecord where
  symbol : String
  side : Side
  quantity : ℚ
  price : ℚ
  total_value : ℚ
  cash_after : ℚ
  pnl : Option ℚ
  pnl_percentage : Option ℚ
  remaining_position : Option ℚ
deriving DecidableEq, Repr

/-- One entry of `portfolio_history` (a value snapshot; timestamp omitted). -/
structure Snapshot where
  value : ℚ
  cash : ℚ
  positions : List (String × Position)
deriving DecidableEq, Repr

/-- Failure outcomes of the trade-execution entry points
(the `{'success': False, 'error': ...}` dictionaries of the source).
`zeroDivision` stands for a Python `ZeroDivisionError` caught by the
enclosing `try`/`except`. -/
inductive TradeError where
  | invalidPrice
  | invalidSize
  | insufficientCash
  | noPosition (symbol : String)
  | noAction (kind : SignalKind)
  | zeroDivision
deriving DecidableEq, Repr

/-- Result dictionary of a trade-execution call. -/
inductive TradeOutcome where
  | success (record : TradeRecord)
  | failure (err : TradeError)
deriving DecidableEq, Repr

/-- The ledger state: the mutable fields of `VirtualPortfolio`. -/
structure Portfolio where
  starting_balance : ℚ
  cash_balance : ℚ
  positions : List (String × Position)
  trade_history : List TradeRecord
  portfolio_history : List Snapshot
  total_trades : ℕ
  winning_trades : ℕ
  losing_trades : ℕ
deriving DecidableEq, Repr

/-- The incoming signal dictionary.  `current_price` is `Option` because
the source reads it with `signal_data.get('current_price', ...)`, whose
default applies only when the key is absent. -/
structure SignalData where
  symbol : String
  signal : SignalKind
  current_price : Option ℚ
  confidence_score : ℚ
deriving DecidableEq, Repr

/-- `get_current_portfolio_value`: cash plus, for each position, quantity
times the supplied price, falling back to the average price when the
symbol has no quoted price. -/
def get_current_portfolio_value (p : Portfolio)
    (prices : String → Option ℚ) : ℚ :=
  p.cash_balance +
    (p.positions.map
      (fun kv => kv.2.quantity * ((prices kv.1).getD kv.2.avg_price))).sum

/-- `_update_portfolio_value`: append a snapshot of the current value and
trim the history to its last 30 entries. -/
def update_portfolio_value (p : Portfolio)
    (prices : String → Option ℚ) : Portfolio :=
  let v := get_current_portfolio_value p prices
  let hist := p.portfolio_history ++ [⟨v, p.cash_balance, p.positions⟩]
  { p with portfolio_history :=
      if hist.length > 30 then hist.drop (hist.length - 30) else hist }

/-- `VirtualPortfolio.__init__`: fresh ledger at the starting balance;
the constructor ends with one `_update_portfolio_value()` call (no
prices supplied). -/
def Portfolio.init (b : ℚ) : Portfolio :=
  update_portfolio_value
    { starting_balance := b
      cash_balance := b
      positions := []
      trade_history := []
      portfolio_history := []
      total_trades := 0
      winning_trades := 0
      losing_trades := 0 }
    (fun _ => none)

/-- `_execute_buy`.  The cash debit happens before the position merge, so
the (unreachable-in-practice) division by a zero merged quantity leaves
the debit applied, exactly as the Python `except` would observe it. -/
def execute_buy (p : Portfolio) (symbol : String) (quantity price : ℚ) :
    TradeOutcome × Portfolio :=
  let total_cost := quantity * price
  if total_cost > p.cash_balance then
    (.failure .insufficientCash, p)
  else
    let cash := p.cash_balance - total_cost
    let p1 := { p with cash_balance := cash }
    let merged : Option (Option Position) :=
      match alookup p.positions symbol with
      | some old =>
          let new_quantity := old.quantity + quantity
          if new_quantity = 0 then none
          else some (some { quantity := new_quantity
                            avg_price := (old.total_cost + total_cost) / new_quantity
                            total_cost := old.total_cost + total_cost })
      | none => some none
    match merged with
    | none => (.failure .zeroDivision, p1)
    | some upd =>
        let newpos : Position :=
          match upd with
          | some np => np
          | none => { quantity := quantity, avg_price := price,
                      total_cost := total_cost }
        let record : TradeRecord :=
          { symbol := symbol, side := .BUY, quantity := quantity
            price := price, total_value := total_cost, cash_after := cash
            pnl := none, pnl_percentage := none, remaining_position := none }
        (.success record,
         { p1 with
            positions := aset p.positions symbol newpos
            trade_history := p.trade_history ++ [record]
            total_trades := p.total_trades + 1 })

/-- `_execute_sell`.  A request above the held quantity is clamped to the
held quantity; a remainder at most 0.0001 deletes the position; the
win/loss counter is chosen by the sign of the realized P&L. -/
def execute_sell (p : Portfolio) (symbol : String) (quantity price : ℚ) :
    TradeOutcome × Portfolio :=
  match alookup p.positions symbol with
  | none => (.failure (.noPosition symbol), p)
  | some cur =>
      if cur.avg_price = 0 then (.failure .zeroDivision, p)
      else
        let q := if quantity > cur.quantity then cur.quantity else quantity
        let total_proceeds := q * price
        let avg_cost := cur.avg_price
        let pnl := (price - avg_cost) * q
        let pnl_percentage := (price - avg_cost) / avg_cost * 100
        let cash := p.cash_balance + total_proceeds
        let remaining := cur.quantity - q
        let positions :=
          if remaining ≤ 1 / 10000 then aerase p.positions symbol
          else aset p.positions symbol
            { quantity := remaining, avg_price := cur.avg_price
              total_cost := remaining * cur.avg_price }
        let remaining_out : ℚ := if remaining ≤ 1 / 10000 then 0 else remaining
        let record : TradeRecord :=
          { symbol := symbol, side := .SELL, quantity := q, price := price
            total_value := total_proceeds, cash_after := cash
            pnl := some pnl, pnl_percentage := some pnl_percentage
            remaining_position := some remaining_out }
        (.success record,
         { p with
            cash_balance := cash
            positions := positions
            trade_history := p.trade_history ++ [record]
            total_trades := p.total_trades + 1
            winning_trades := if pnl > 0 then p.winning_trades + 1
                              else p.winning_trades
            losing_trades := if pnl > 0 then p.losing_trades
                             else p.losing_trades + 1 })

/-- `execute_virtual_trade`: validate price and size, derive the quantity
`usdSize / price`, dispatch on the signal kind. -/
def execute_virtual_trade (p : Portfolio) (sig : SignalData)
    (position_size_usd : ℚ) : TradeOutcome × Portfolio :=
  let current_price := sig.current_price.getD 0
  if current_price ≤ 0 then (.failure .invalidPrice, p)
  else if position_size_usd ≤ 0 then (.failure .invalidSize, p)
  else
    let quantity := position_size_usd / current_price
    match sig.signal with
    | .BUY => execute_buy p sig.symbol quantity current_price
    | .STRONG_BUY => execute_buy p sig.symbol quantity current_price
    | .SELL => execute_sell p sig.symbol quantity current_price
    | .AVOID => execute_sell p sig.symbol quantity current_price
    | k => (.failure (.noAction k), p)

/-- Ledger states reachable from a fresh ledger with non-negative starting
balance by any sequence of `execute_virtual_trade` calls (failed calls
return the state unchanged, so they are covered by the same step). -/
inductive Reachable : Portfolio → Prop where
  | init (b : ℚ) (hb : 0 ≤ b) : Reachable (Portfolio.init b)
  | step (p : Portfolio) (sig : SignalData) (usd : ℚ) (hp : Reachable p) :
      Reachable (execute_virtual_trade p sig usd).2

/-! ## Auto-trading monitor (`AutoTradingEngine`,
src/trading/signal_integration.py) -/

/-- An active alert delivered by the alert-source collaborator. -/
structure Alert where
  id : String
  symbol : String
  signal_type : SignalKind
  confidence_score : ℚ
deriving DecidableEq, Repr

/-- The mutable state of `AutoTradingEngine` that the signal-processing
cycle reads and writes.  Times are rational seconds; `datetime.now()`
becomes an explicit `now` argument at each call. -/
structure EngineState where
  ledger : Portfolio
  min_confidence_threshold : ℚ
  default_position_size : ℚ
  max_positions : ℕ
  cooldown_period : ℚ
  last_trade_times : List (String × ℚ)
  processed_alerts : List String
  auto_trades_executed : ℕ
deriving DecidableEq, Repr

/-- `AutoTradingEngine.__init__`: default thresholds 85 / $500 / 10
positions / 300 s cooldown, empty tracking state. -/
def EngineState.init (p : Portfolio) : EngineState :=
  { ledger := p
    min_confidence_threshold := 85
    default_position_size := 500
    max_positions := 10
    cooldown_period := 300
    last_trade_times := []
    processed_alerts := []
    auto_trades_executed := 0 }

/-- `_should_auto_trade`: the entry gate, with the checks in source
order (confidence, kind, position count, cooldown, symbol already
held). -/
def should_auto_trade (e : EngineState) (now : ℚ) (a : Alert) : Bool :=
  if a.confidence_score < e.min_confidence_threshold then false
  else if ¬(a.signal_type = SignalKind.BUY ∨
            a.signal_type = SignalKind.STRONG_BUY) then false
  else if e.ledger.positions.length ≥ e.max_positions then false
  else if (match alookup e.last_trade_times a.symbol with
           | some t => decide (now - t < e.cooldown_period)
           | none => false) then false
  else if (alookup e.ledger.positions a.symbol).isSome then false
  else true

/-- `_execute_auto_trade`: resolve the price (abort the signal when the
lookup is unavailable), build the signal dictionary, execute the trade
at the default size; on success bump the counter and record the trade
time for the symbol. -/
def execute_auto_trade (e : EngineState) (now : ℚ) (a : Alert)
    (priceOf : String → Option ℚ) : EngineState :=
  match priceOf a.symbol with
  | none => e
  | some price =>
      let sig : SignalData :=
        { symbol := a.symbol, signal := a.signal_type
          current_price := some price
          confidence_score := a.confidence_score }
      match execute_virtual_trade e.ledger sig e.default_position_size with
      | (.success _, p1) =>
          { e with
              ledger := p1
              auto_trades_executed := e.auto_trades_executed + 1
              last_trade_times := aset e.last_trade_times a.symbol now }
      | (.failure _, p1) => { e with ledger := p1 }

/-- One iteration of the `for alert in active_alerts` loop of
`_process_new_signals`: skip identifiers already in the processed set,
run the gate and (on qualification) the trade, and mark the identifier
processed regardless of the outcome.  The second accumulator component
collects the identifiers that were actually evaluated (i.e. not
skipped by the processed set) this cycle. -/
def process_one (now : ℚ) (priceOf : String → Option ℚ)
    (acc : EngineState × List String) (a : Alert) :
    EngineState × List String :=
  if a.id ∈ acc.1.processed_alerts then acc
  else
    let e1 := if should_auto_trade acc.1 now a
              then execute_auto_trade acc.1 now a priceOf
              else acc.1
    ({ e1 with processed_alerts := a.id :: e1.processed_alerts },
     acc.2 ++ [a.id])

/-- `_process_new_signals`: walk the active alerts in delivery order. -/
def process_new_signals (e : EngineState) (now : ℚ) (alerts : List Alert)
    (priceOf : String → Option ℚ) : EngineState × List String :=
  alerts.foldl (process_one now priceOf) (e, [])

/-! ## Python attribute semantics of `AutoTradingEngine.stop_monitoring`

`AutoTradingEngine` defines a method named `stop_monitoring`
(src/trading/signal_integration.py line 45) while `__init__` (line 29)
and `start_monitoring` (line 37) assign a boolean loop-exit flag to the
same attribute name on the instance.  Python resolves attribute access
through the instance `__dict__` before the class `__dict__`, so this
fragment embeds exactly that lookup rule for the engine object. -/

/-- A Python attribute value, as far as the engine object needs:
booleans and numbers stored by `__init__`, `None`, opaque collaborator
objects, empty collections, and bound methods from the class body. -/
inductive PyValue where
  | pyBool : Bool → PyValue
  | pyNum : ℚ → PyValue
  | pyNone : PyValue
  | pyObj : String → PyValue
  | pyDict : PyValue
  | pySet : PyValue
  | pyMethod : String → PyValue
deriving DecidableEq, Repr

/-- Class `__dict__` of `AutoTradingEngine`: every `def` in the class
body. -/
def engineClassAttr (name : String) : Option PyValue :=
  if name ∈ ["start_monitoring", "stop_monitoring", "get_status",
             "update_settings", "clear_processed_alerts"] then
    some (.pyMethod name)
  else none

/-- Instance `__dict__` after `AutoTradingEngine.__init__` (lines
12-29), in assignment order.  Line 29 is `self.stop_monitoring =
False`. -/
def engineInitDict : List (String × PyValue) :=
  [("portfolio", .pyObj "portfolio"),
   ("alert_manager", .pyObj "alert_manager"),
   ("coingecko_api", .pyObj "coingecko_api"),
   ("logger", .pyObj "logger"),
   ("enabled", .pyBool false),
   ("min_confidence_threshold", .pyNum 85),
   ("default_position_size", .pyNum 500),
   ("max_positions", .pyNum 10),
   ("cooldown_period", .pyNum 300),
   ("last_trade_times", .pyDict),
   ("processed_alerts", .pySet),
   ("auto_trades_executed", .pyNum 0),
   ("monitoring_thread", .pyNone),
   ("stop_monitoring", .pyBool false)]

/-- Python attribute access on the engine object: the instance
`__dict__` shadows the class `__dict__`. -/
def engineGetattr (inst : List (String × PyValue)) (name : String) :
    Option PyValue :=
  match alookup inst name with
  | some v => some v
  | none => engineClassAttr name

/-- Outcome of evaluating `obj.<name>()` in Python. -/
inductive CallResult where
  | callsMethod (name : String)
  | typeErrorNotCallable
  | attributeError
deriving DecidableEq, Repr

/-- `obj.<name>()`: calling a non-callable attribute raises
`TypeError`. -/
def engineCallAttr (inst : List (String × PyValue)) (name : String) :
    CallResult :=
  match engineGetattr inst name with
  | some (.pyMethod m) => .callsMethod m
  | some _ => .typeErrorNotCallable
  | none => .attributeError

/-! ## Synchronous signal processor (`SignalProcessor`,
src/trading/signal_processor.py) -/

/-- The decision of `_make_trade_decision` (`should_trade` plus the
`action` when trading; reason strings dropped — no property mentions
them, only which branch is taken). -/
inductive Decision where
  | actBuy
  | actSell
  | noTrade
deriving DecidableEq, Repr

/-- Processor state: its own ledger plus the confidence thresholds and
position size from `SignalProcessor.__init__`. -/
structure ProcState where
  ledger : Portfolio
  min_confidence_buy : ℚ
  min_confidence_sell : ℚ
  position_size_usd : ℚ
deriving DecidableEq, Repr

/-- `_has_position`: the symbol is in the position map with positive
quantity. -/
def has_position (p : Portfolio) (symbol : String) : Bool :=
  match alookup p.positions symbol with
  | some pos => pos.quantity > 0
  | none => false

/-- `_make_trade_decision`. -/
def make_trade_decision (st : ProcState) (sig : SignalData) : Decision :=
  match sig.signal with
  | .BUY | .STRONG_BUY =>
      if sig.confidence_score ≥ st.min_confidence_buy then
        if has_position st.ledger sig.symbol then .noTrade else .actBuy
      else .noTrade
  | .SELL | .AVOID =>
      if sig.confidence_score ≥ st.min_confidence_sell then
        if has_position st.ledger sig.symbol then .actSell else .noTrade
      else .noTrade
  | _ => .noTrade

/-- The SELL branch of `SignalProcessor._execute_trade` (lines 90-100):
it reads the held quantity (`position.get('quantity', 0)`), takes the
signal's `current_price` with the position's `avg_price` as the
default applied only when the key is absent, and calls the ledger's
internal `_execute_sell` directly — not `execute_virtual_trade`. -/
def processor_execute_sell (st : ProcState) (sig : SignalData) :
    TradeOutcome × Portfolio :=
  let position := alookup st.ledger.positions sig.symbol
  let quantity := (position.map Position.quantity).getD 0
  let price := sig.current_price.getD
    ((position.map Position.avg_price).getD 0)
  execute_sell st.ledger sig.symbol quantity price

/-! ## Ledger invariants over reachable states -/

/-- The inductive invariant of the ledger under `execute_virtual_trade`
steps: non-negative cash; every stored position has positive quantity
and average price with `total_cost = quantity * avg_price`;
`total_trades` counts the trade records; the win/loss counters count
exactly the SELL records; the snapshot history holds the single
snapshot taken by the constructor. -/
structure Inv (p : Portfolio) : Prop where
  cash_nonneg : 0 ≤ p.cash_balance
  qty_pos : ∀ kv ∈ p.positions, 0 < kv.2.quantity
  avg_pos : ∀ kv ∈ p.positions, 0 < kv.2.avg_price
  tc_eq : ∀ kv ∈ p.positions,
    kv.2.total_cost = kv.2.quantity * kv.2.avg_price
  trades_len : p.total_trades = p.trade_history.length
  win_loss : p.winning_trades + p.losing_trades =
    (p.trade_history.filter (fun r => r.side = Side.SELL)).length
  hist_one : p.portfolio_history.length = 1

/-! ## Concrete scenario states -/

/-- A fresh ledger at the default $10,000 starting balance. -/
def fresh10000 : Portfolio := Portfolio.init 10000

/-- The spec's round-trip scenario, first leg: buy $500 of SOL at $100. -/
def buySOL100 : SignalData :=
  { symbol := "SOL", signal := .BUY, current_price := some 100
    confidence_score := 90 }

def afterBuy1 : Portfolio :=
  (execute_virtual_trade fresh10000 buySOL100 500).2

/-- Round-trip second leg: buy $500 more of SOL at $120. -/
def buySOL120 : SignalData :=
  { symbol := "SOL", signal := .BUY, current_price := some 120
    confidence_score := 90 }

def afterBuy2 : Portfolio :=
  (execute_virtual_trade afterBuy1 buySOL120 500).2

/-- Round-trip third leg: sell at $150; the $2000 request overshoots the
position, so the sale clamps to the full held quantity. -/
def sellSOL150 : SignalData :=
  { symbol := "SOL", signal := .SELL, current_price := some 150
    confidence_score := 90 }

def roundTripSell : TradeOutcome × Portfolio :=
  execute_virtual_trade afterBuy2 sellSOL150 2000

/-- A buy whose computed quantity `0.001 / 100 = 0.00001` is below the
closing tolerance ε = 0.0001. -/
def afterTinyBuy : Portfolio :=
  (execute_virtual_trade fresh10000 buySOL100 (1 / 1000)).2

/-- A sell of a symbol that is not held. -/
def sellZZZ : SignalData :=
  { symbol := "ZZZ", signal := .SELL, current_price := some 50
    confidence_score := 90 }

/-- A partial sell: $300 of a $500 SOL position at the purchase price. -/
def sellSOL100partial : SignalData :=
  { symbol := "SOL", signal := .SELL, current_price := some 100
    confidence_score := 90 }

/-- Engine whose symbol SOL last traded at time 0 (rational seconds). -/
def gateEngine : EngineState :=
  { EngineState.init fresh10000 with last_trade_times := [("SOL", 0)] }

/-- A high-confidence BUY alert for SOL with identifier `a1`. -/
def gateAlert : Alert :=
  { id := "a1", symbol := "SOL", signal_type := .BUY
    confidence_score := 90 }

def monEngine : EngineState := EngineState.init fresh10000

/-- First poll cycle: the price lookup is unavailable. -/
def cycle1 : EngineState × List String :=
  process_new_signals monEngine 0 [gateAlert] (fun _ => none)

/-- Second poll cycle: the same alert is still active and the price is
now available. -/
def cycle2 : EngineState × List String :=
  process_new_signals cycle1.1 30 [gateAlert] (fun _ => some 100)

/-- A signal processor holding the 5-SOL-at-$100 ledger. -/
def procState : ProcState :=
  { ledger := afterBuy1, min_confidence_buy := 75
    min_confidence_sell := 60, position_size_usd := 500 }

/-- A SELL signal that carries `current_price = 0` (key present). -/
def sellZeroPrice : SignalData :=
  { symbol := "SOL", signal := .SELL, current_price := some 0
    confidence_score := 90 }

/-- A SELL signal with no `current_price` key at all. -/
def sellAbsentPrice : SignalData :=
  { symbol := "SOL", signal := .SELL, current_price := none
    confidence_score := 90 }

/-! ## Association-list lemmas -/

theorem alookup_aerase_self {α : Type} (l : List (String × α)) (s : String) :
    alookup (aerase l s) s = none := by
  induction l with
  | nil => rfl
  | cons kv rest ih =>
    by_cases hk : kv.1 = s
    · simpa [aerase, hk] using ih
    · simpa [aerase, hk, alookup] using ih

theorem alookup_aerase_ne {α : Type} (l : List (String × α)) (s t : String)
    (hst : s ≠ t) : alookup (aerase l s) t = alookup l t := by
  induction l with
  | nil => rfl
  | cons kv rest ih =>
    by_cases hk : kv.1 = s
    · have hkt : kv.1 ≠ t := by rw [hk]; exact hst
      simpa [aerase, hk, alookup, hkt, hst] using ih
    · by_cases hkt : kv.1 = t
      · simp [aerase, hk, alookup, hkt, Ne.symm hst]
      · simpa [aerase, hk, alookup, hkt] using ih

theorem alookup_aset_self {α : Type} (l : List (String × α)) (s : String)
    (v : α) : alookup (aset l s v) s = some v := by
  simp [aset, alookup]

theorem alookup_aset_ne {α : Type} (l : List (String × α)) (s t : String)
    (v : α) (hst : s ≠ t) : alookup (aset l s v) t = alookup l t := by
  simp only [aset, alookup, hst, if_neg]
  exact alookup_aerase_ne l s t hst

theorem mem_aerase {α : Type} {l : List (String × α)} {s : String}
    {kv : String × α} (h : kv ∈ aerase l s) : kv ∈ l := by
  induction l with
  | nil => simp [aerase] at h
  | cons kv0 rest ih =>
    by_cases hk : kv0.1 = s
    · simp only [aerase, hk, if_pos] at h
      exact List.mem_cons_of_mem _ (ih h)
    · simp only [aerase, hk, if_neg, not_false_iff] at h
      rcases List.mem_cons.mp h with h | h
      · exact List.mem_cons.mpr (Or.inl h)
      · exact List.mem_cons_of_mem _ (ih h)

theorem mem_aset {α : Type} {l : List (String × α)} {s : String} {v : α}
    {kv : String × α} (h : kv ∈ aset l s v) : kv = (s, v) ∨ kv ∈ l := by
  rcases List.mem_cons.mp h with h | h
  · exact Or.inl h
  · exact Or.inr (mem_aerase h)

theorem alookup_mem {α : Type} {l : List (String × α)} {s : String} {v : α}
    (h : alookup l s = some v) : (s, v) ∈ l := by
  induction l with
  | nil => simp [alookup] at h
  | cons kv rest ih =>
    by_cases hk : kv.1 = s
    · simp only [alookup, hk, if_pos] at h
      cases h
      exact List.mem_cons.mpr (Or.inl (by rw [← hk]))
    · simp only [alookup, hk, if_neg, not_false_iff] at h
      exact List.mem_cons_of_mem _ (ih h)

/-! ## Reduction equations for the trade-execution entry points -/

theorem execute_buy_eq_insufficient (p : Portfolio) (s : String)
    (q price : ℚ) (hc : q * price > p.cash_balance) :
    execute_buy p s q price = (.failure .insufficientCash, p) := by
  simp [execute_buy, hc]

theorem execute_buy_eq_new (p : Portfolio) (s : String) (q price : ℚ)
    (hc : ¬(q * price > p.cash_balance))
    (hl : alookup p.positions s = none) :
    execute_buy p s q price =
      (.success { symbol := s, side := .BUY, quantity := q, price := price,
                  total_value := q * price,
                  cash_after := p.cash_balance - q * price,
                  pnl := none, pnl_percentage := none,
                  remaining_position := none },
       { p with cash_balance := p.cash_balance - q * price,
                positions := aset p.positions s ⟨q, price, q * price⟩,
                trade_history := p.trade_history ++
                  [{ symbol := s, side := .BUY, quantity := q, price := price,
                     total_value := q * price,
                     cash_after := p.cash_balance - q * price,
                     pnl := none, pnl_percentage := none,
                     remaining_position := none }],
                total_trades := p.total_trades + 1 }) := by
  simp [execute_buy, hc, hl]

theorem execute_buy_eq_merge (p : Portfolio) (s : String) (q price : ℚ)
    (cur : Position) (hc : ¬(q * price > p.cash_balance))
    (hl : alookup p.positions s = some cur)
    (hnq : ¬(cur.quantity + q = 0)) :
    execute_buy p s q price =
      (.success { symbol := s, side := .BUY, quantity := q, price := price,
                  total_value := q * price,
                  cash_after := p.cash_balance - q * price,
                  pnl := none, pnl_percentage := none,
                  remaining_position := none },
       { p with cash_balance := p.cash_balance - q * price,
                positions := aset p.positions s
                  ⟨cur.quantity + q,
                   (cur.total_cost + q * price) / (cur.quantity + q),
                   cur.total_cost + q * price⟩,
                trade_history := p.trade_history ++
                  [{ symbol := s, side := .BUY, quantity := q, price := price,
                     total_value := q * price,
                     cash_after := p.cash_balance - q * price,
                     pnl := none, pnl_percentage := none,
                     remaining_position := none }],
                total_trades := p.total_trades + 1 }) := by
  simp [execute_buy, hc, hl, hnq]

theorem execute_sell_eq_none (p : Portfolio) (s : String) (q price : ℚ)
    (hl : alookup p.positions s = none) :
    execute_sell p s q price = (.failure (.noPosition s), p) := by
  simp [execute_sell, hl]

theorem execute_sell_eq_some (p : Portfolio) (s : String) (q price : ℚ)
    (cur : Position) (hl : alookup p.positions s = some cur)
    (havg : ¬(cur.avg_price = 0)) :
    execute_sell p s q price =
      (let q' := if q > cur.quantity then cur.quantity else q
       let pnl := (price - cur.avg_price) * q'
       let remaining := cur.quantity - q'
       let record : TradeRecord :=
         { symbol := s, side := .SELL, quantity := q', price := price
           total_value := q' * price
           cash_after := p.cash_balance + q' * price
           pnl := some pnl
           pnl_percentage :=
             some ((price - cur.avg_price) / cur.avg_price * 100)
           remaining_position :=
             some (if remaining ≤ 1 / 10000 then 0 else remaining) }
       (.success record,
        { p with
            cash_balance := p.cash_balance + q' * price
            positions :=
              if remaining ≤ 1 / 10000 then aerase p.positions s
              else aset p.positions s
                ⟨remaining, cur.avg_price, remaining * cur.avg_price⟩
            trade_history := p.trade_history ++ [record]
            total_trades := p.total_trades + 1
            winning_trades := if pnl > 0 then p.winning_trades + 1
                              else p.winning_trades
            losing_trades := if pnl > 0 then p.losing_trades
                             else p.losing_trades + 1 })) := by
  simp [execute_sell, hl, havg]

theorem evt_eq_invalid_price (p : Portfolio) (sig : SignalData) (usd : ℚ)
    (h : sig.current_price.getD 0 ≤ 0) :
    execute_virtual_trade p sig usd = (.failure .invalidPrice, p) := by
  simp [execute_virtual_trade, h]

theorem evt_eq_invalid_size (p : Portfolio) (sig : SignalData) (usd : ℚ)
    (h1 : ¬(sig.current_price.getD 0 ≤ 0)) (h2 : usd ≤ 0) :
    execute_virtual_trade p sig usd = (.failure .invalidSize, p) := by
  simp [execute_virtual_trade, h1, h2]

theorem evt_eq_buy (p : Portfolio) (sig : SignalData) (usd : ℚ)
    (h1 : ¬(sig.current_price.getD 0 ≤ 0)) (h2 : ¬(usd ≤ 0))
    (hk : sig.signal = .BUY ∨ sig.signal = .STRONG_BUY) :
    execute_virtual_trade p sig usd =
      execute_buy p sig.symbol (usd / sig.current_price.getD 0)
        (sig.current_price.getD 0) := by
  rcases hk with hk | hk <;> simp [execute_virtual_trade, h1, h2, hk]

theorem evt_eq_sell (p : Portfolio) (sig : SignalData) (usd : ℚ)
    (h1 : ¬(sig.current_price.getD 0 ≤ 0)) (h2 : ¬(usd ≤ 0))
    (hk : sig.signal = .SELL ∨ sig.signal = .AVOID) :
    execute_virtual_trade p sig usd =
      execute_sell p sig.symbol (usd / sig.current_price.getD 0)
        (sig.current_price.getD 0) := by
  rcases hk with hk | hk <;> simp [execute_virtual_trade, h1, h2, hk]

theorem evt_eq_noaction (p : Portfolio) (sig : SignalData) (usd : ℚ)
    (h1 : ¬(sig.current_price.getD 0 ≤ 0)) (h2 : ¬(usd ≤ 0))
    (hk : sig.signal = .HOLD ∨ sig.signal = .WATCH) :
    execute_virtual_trade p sig usd =
      (.failure (.noAction sig.signal), p) := by
  rcases hk with hk | hk <;> simp [execute_virtual_trade, h1, h2, hk]

theorem inv_buy (p : Portfolio) (s : String) (q price : ℚ)
    (hI : Inv p) (hq : 0 < q) (hpr : 0 < price) :
    Inv (execute_buy p s q price).2 := by
  by_cases hc : q * price > p.cash_balance
  · rw [execute_buy_eq_insufficient p s q price hc]
    exact hI
  · have hcash : 0 ≤ p.cash_balance - q * price :=
      sub_nonneg.mpr (not_lt.mp hc)
    rcases hl : alookup p.positions s with _ | old
    · rw [execute_buy_eq_new p s q price hc hl]
      refine ⟨hcash, ?_, ?_, ?_, ?_, ?_, hI.hist_one⟩
      · intro kv hkv
        rcases mem_aset hkv with h | h
        · rw [h]; exact hq
        · exact hI.qty_pos kv h
      · intro kv hkv
        rcases mem_aset hkv with h | h
        · rw [h]; exact hpr
        · exact hI.avg_pos kv h
      · intro kv hkv
        rcases mem_aset hkv with h | h
        · rw [h]
        · exact hI.tc_eq kv h
      · simp [hI.trades_len]
      · simp [List.filter_append, hI.win_loss]
    · have hmem := alookup_mem hl
      have hoq : 0 < old.quantity := hI.qty_pos (s, old) hmem
      have hoa : 0 < old.avg_price := hI.avg_pos (s, old) hmem
      have hotc : old.total_cost = old.quantity * old.avg_price :=
        hI.tc_eq (s, old) hmem
      have hnq0 : 0 < old.quantity + q := add_pos hoq hq
      have hnq : ¬(old.quantity + q = 0) := ne_of_gt hnq0
      have hotc_pos : 0 < old.total_cost := by
        rw [hotc]; exact mul_pos hoq hoa
      rw [execute_buy_eq_merge p s q price old hc hl hnq]
      refine ⟨hcash, ?_, ?_, ?_, ?_, ?_, hI.hist_one⟩
      · intro kv hkv
        rcases mem_aset hkv with h | h
        · rw [h]; exact hnq0
        · exact hI.qty_pos kv h
      · intro kv hkv
        rcases mem_aset hkv with h | h
        · rw [h]
          exact div_pos (add_pos hotc_pos (mul_pos hq hpr)) hnq0
        · exact hI.avg_pos kv h
      · intro kv hkv
        rcases mem_aset hkv with h | h
        · rw [h]
          show old.total_cost + q * price =
            (old.quantity + q) *
              ((old.total_cost + q * price) / (old.quantity + q))
          rw [mul_comm (old.quantity + q)
            ((old.total_cost + q * price) / (old.quantity + q)),
            div_mul_cancel₀ _ hnq]
        · exact hI.tc_eq kv h
      · simp [hI.trades_len]
      · simp [List.filter_append, hI.win_loss]

theorem inv_sell (p : Portfolio) (s : String) (q price : ℚ)
    (hI : Inv p) (hq : 0 < q) (hpr : 0 < price) :
    Inv (execute_sell p s q price).2 := by
  rcases hl : alookup p.positions s with _ | cur
  · rw [execute_sell_eq_none p s q price hl]
    exact hI
  · have hmem := alookup_mem hl
    have hcq : 0 < cur.quantity := hI.qty_pos (s, cur) hmem
    have hca : 0 < cur.avg_price := hI.avg_pos (s, cur) hmem
    have havg : ¬(cur.avg_price = 0) := ne_of_gt hca
    rw [execute_sell_eq_some p s q price cur hl havg]
    dsimp only
    have htr_pos : 0 < (if q > cur.quantity then cur.quantity else q) := by
      split <;> [exact hcq; exact hq]
    refine ⟨?_, ?_, ?_, ?_, ?_, ?_, hI.hist_one⟩
    · exact add_nonneg hI.cash_nonneg (le_of_lt (mul_pos htr_pos hpr))
    · intro kv hkv
      by_cases hrem : cur.quantity -
          (if q > cur.quantity then cur.quantity else q) ≤ 1 / 10000
      · rw [if_pos hrem] at hkv
        exact hI.qty_pos kv (mem_aerase hkv)
      · rw [if_neg hrem] at hkv
        rcases mem_aset hkv with h | h
        · rw [h]
          exact lt_trans (by norm_num) (lt_of_not_le hrem)
        · exact hI.qty_pos kv h
    · intro kv hkv
      by_cases hrem : cur.quantity -
          (if q > cur.quantity then cur.quantity else q) ≤ 1 / 10000
      · rw [if_pos hrem] at hkv
        exact hI.avg_pos kv (mem_aerase hkv)
      · rw [if_neg hrem] at hkv
        rcases mem_aset hkv with h | h
        · rw [h]; exact hca
        · exact hI.avg_pos kv h
    · intro kv hkv
      by_cases hrem : cur.quantity -
          (if q > cur.quantity then cur.quantity else q) ≤ 1 / 10000
      · rw [if_pos hrem] at hkv
        exact hI.tc_eq kv (mem_aerase hkv)
      · rw [if_neg hrem] at hkv
        rcases mem_aset hkv with h | h
        · rw [h]
        · exact hI.tc_eq kv h
    · simp [hI.trades_len]
    · by_cases hw : (price - cur.avg_price) *
          (if q > cur.quantity then cur.quantity else q) > 0
      · simp only [hw, if_pos]
        simp [List.filter_append, ← hI.win_loss]
        omega
      · simp only [hw, if_neg, not_false_iff]
        simp [List.filter_append, ← hI.win_loss]
        omega

theorem inv_step (p : Portfolio) (sig : SignalData) (usd : ℚ)
    (hI : Inv p) : Inv (execute_virtual_trade p sig usd).2 := by
  by_cases h1 : sig.current_price.getD 0 ≤ 0
  · rw [evt_eq_invalid_price p sig usd h1]
    exact hI
  · by_cases h2 : usd ≤ 0
    · rw [evt_eq_invalid_size p sig usd h1 h2]
      exact hI
    · have hpr : 0 < sig.current_price.getD 0 := not_le.mp h1
      have hq : 0 < usd / sig.current_price.getD 0 :=
        div_pos (not_le.mp h2) hpr
      cases hk : sig.signal
      · rw [evt_eq_buy p sig usd h1 h2 (Or.inl hk)]
        exact inv_buy _ _ _ _ hI hq hpr
      · rw [evt_eq_buy p sig usd h1 h2 (Or.inr hk)]
        exact inv_buy _ _ _ _ hI hq hpr
      · rw [evt_eq_sell p sig usd h1 h2 (Or.inl hk)]
        exact inv_sell _ _ _ _ hI hq hpr
      · rw [evt_eq_sell p sig usd h1 h2 (Or.inr hk)]
        exact inv_sell _ _ _ _ hI hq hpr
      · rw [evt_eq_noaction p sig usd h1 h2 (Or.inl hk)]
        exact hI
      · rw [evt_eq_noaction p sig usd h1 h2 (Or.inr hk)]
        exact hI

theorem inv_init (b : ℚ) (hb : 0 ≤ b) : Inv (Portfolio.init b) := by
  refine ⟨?_, ?_, ?_, ?_, ?_, ?_, ?_⟩ <;>
    simp [Portfolio.init, update_portfolio_value,
      get_current_portfolio_value]
  exact hb

theorem reachable_inv {p : Portfolio} (h : Reachable p) : Inv p := by
  induction h with
  | init b hb => exact inv_init b hb
  | step p sig usd hp ih => exact inv_step p sig usd ih

/-! ## Further step lemmas used by the claims -/

theorem execute_sell_eq_zero_avg (p : Portfolio) (s : String)
    (q price : ℚ) (cur : Position)
    (hl : alookup p.positions s = some cur) (havg : cur.avg_price = 0) :
    execute_sell p s q price = (.failure .zeroDivision, p) := by
  simp [execute_sell, hl, havg]

/-- A sell step never raises any position's average price data: every
position present afterwards was present before with the same
`avg_price` and at least the remaining quantity. -/
theorem sell_preserves_avg (p : Portfolio) (sig : SignalData) (usd : ℚ)
    (hk : sig.signal = .SELL ∨ sig.signal = .AVOID) (s : String)
    (pos' : Position)
    (h : alookup (execute_virtual_trade p sig usd).2.positions s =
      some pos') :
    ∃ pos, alookup p.positions s = some pos ∧
      pos'.avg_price = pos.avg_price ∧ pos'.quantity ≤ pos.quantity := by
  by_cases h1 : sig.current_price.getD 0 ≤ 0
  · rw [evt_eq_invalid_price p sig usd h1] at h
    exact ⟨pos', h, rfl, le_refl _⟩
  · by_cases h2 : usd ≤ 0
    · rw [evt_eq_invalid_size p sig usd h1 h2] at h
      exact ⟨pos', h, rfl, le_refl _⟩
    · rw [evt_eq_sell p sig usd h1 h2 hk] at h
      have hq : 0 < usd / sig.current_price.getD 0 :=
        div_pos (not_le.mp h2) (not_le.mp h1)
      rcases hl : alookup p.positions sig.symbol with _ | cur
      · rw [execute_sell_eq_none _ _ _ _ hl] at h
        exact ⟨pos', h, rfl, le_refl _⟩
      · by_cases havg : cur.avg_price = 0
        · rw [execute_sell_eq_zero_avg _ _ _ _ cur hl havg] at h
          exact ⟨pos', h, rfl, le_refl _⟩
        · rw [execute_sell_eq_some _ _ _ _ cur hl havg] at h
          dsimp only at h
          by_cases hrem : cur.quantity -
              (if usd / sig.current_price.getD 0 > cur.quantity
               then cur.quantity
               else usd / sig.current_price.getD 0) ≤ 1 / 10000
          · rw [if_pos hrem] at h
            by_cases hs : sig.symbol = s
            · rw [← hs, alookup_aerase_self] at h
              cases h
            · rw [alookup_aerase_ne _ _ _ hs] at h
              exact ⟨pos', h, rfl, le_refl _⟩
          · rw [if_neg hrem] at h
            by_cases hs : sig.symbol = s
            · subst hs
              rw [alookup_aset_self] at h
              cases h
              refine ⟨cur, hl, rfl, ?_⟩
              by_cases hqc : usd / sig.current_price.getD 0 > cur.quantity
              · exact absurd (by rw [if_pos hqc]; simp) hrem
              · rw [if_neg hqc]
                exact sub_le_self _ (le_of_lt hq)
            · rw [alookup_aset_ne _ _ _ _ hs] at h
              exact ⟨pos', h, rfl, le_refl _⟩

/-- `execute_virtual_trade` never touches the snapshot history: neither
a successful buy, a successful sell, nor any failure appends a
snapshot. -/
theorem evt_preserves_history (p : Portfolio) (sig : SignalData)
    (usd : ℚ) :
    (execute_virtual_trade p sig usd).2.portfolio_history =
      p.portfolio_history := by
  by_cases h1 : sig.current_price.getD 0 ≤ 0
  · rw [evt_eq_invalid_price p sig usd h1]
  · by_cases h2 : usd ≤ 0
    · rw [evt_eq_invalid_size p sig usd h1 h2]
    · have hbuy : (execute_buy p sig.symbol
          (usd / sig.current_price.getD 0)
          (sig.current_price.getD 0)).2.portfolio_history =
            p.portfolio_history := by
        by_cases hc : usd / sig.current_price.getD 0 *
            sig.current_price.getD 0 > p.cash_balance
        · rw [execute_buy_eq_insufficient _ _ _ _ hc]
        · rcases hl : alookup p.positions sig.symbol with _ | old
          · rw [execute_buy_eq_new _ _ _ _ hc hl]
          · by_cases hnq : old.quantity + usd / sig.current_price.getD 0 = 0
            · simp [execute_buy, hc, hl, hnq]
            · rw [execute_buy_eq_merge _ _ _ _ old hc hl hnq]
      have hsell : (execute_sell p sig.symbol
          (usd / sig.current_price.getD 0)
          (sig.current_price.getD 0)).2.portfolio_history =
            p.portfolio_history := by
        rcases hl : alookup p.positions sig.symbol with _ | cur
        · rw [execute_sell_eq_none _ _ _ _ hl]
        · by_cases havg : cur.avg_price = 0
          · rw [execute_sell_eq_zero_avg _ _ _ _ cur hl havg]
          · rw [execute_sell_eq_some _ _ _ _ cur hl havg]
      cases hk : sig.signal
      · rw [evt_eq_buy p sig usd h1 h2 (Or.inl hk)]; exact hbuy
      · rw [evt_eq_buy p sig usd h1 h2 (Or.inr hk)]; exact hbuy
      · rw [evt_eq_sell p sig usd h1 h2 (Or.inl hk)]; exact hsell
      · rw [evt_eq_sell p sig usd h1 h2 (Or.inr hk)]; exact hsell
      · rw [evt_eq_noaction p sig usd h1 h2 (Or.inl hk)]
      · rw [evt_eq_noaction p sig usd h1 h2 (Or.inr hk)]

theorem trim_length {α : Type} (l : List α) :
    (if l.length > 30 then l.drop (l.length - 30) else l).length =
      min l.length 30 := by
  split <;> simp [List.length_drop] <;> omega

/-- `_update_portfolio_value` appends one snapshot and caps the history
at the 30 most recent entries. -/
theorem update_history_length (p : Portfolio)
    (prices : String → Option ℚ) :
    (update_portfolio_value p prices).portfolio_history.length =
      min (p.portfolio_history.length + 1) 30 := by
  unfold update_portfolio_value
  dsimp only
  rw [trim_length]
  simp

/-- A price lookup returning unavailable aborts the auto-trade with no
state change at all. -/
theorem exec_auto_trade_price_unavailable (e : EngineState) (now : ℚ)
    (a : Alert) (priceOf : String → Option ℚ)
    (h : priceOf a.symbol = none) :
    execute_auto_trade e now a priceOf = e := by
  simp [execute_auto_trade, h]

theorem execute_auto_trade_processed (e : EngineState) (now : ℚ)
    (a : Alert) (priceOf : String → Option ℚ) :
    (execute_auto_trade e now a priceOf).processed_alerts =
      e.processed_alerts := by
  unfold execute_auto_trade
  cases priceOf a.symbol
  · rfl
  · dsimp only
    split <;> rfl

theorem process_one_processed_mono (now : ℚ)
    (priceOf : String → Option ℚ) (acc : EngineState × List String)
    (a : Alert) (x : String) (hx : x ∈ acc.1.processed_alerts) :
    x ∈ (process_one now priceOf acc a).1.processed_alerts := by
  unfold process_one
  split
  · exact hx
  · dsimp only
    split
    · exact List.mem_cons_of_mem _
        ((execute_auto_trade_processed _ _ _ _).symm ▸ hx)
    · exact List.mem_cons_of_mem _ hx

theorem process_one_adds_id (now : ℚ) (priceOf : String → Option ℚ)
    (acc : EngineState × List String) (a : Alert) :
    a.id ∈ (process_one now priceOf acc a).1.processed_alerts := by
  unfold process_one
  split
  · assumption
  · exact List.mem_cons_self _ _

theorem foldl_processed_mono (now : ℚ) (priceOf : String → Option ℚ)
    (l : List Alert) (acc : EngineState × List String) (x : String)
    (hx : x ∈ acc.1.processed_alerts) :
    x ∈ (l.foldl (process_one now priceOf) acc).1.processed_alerts := by
  induction l generalizing acc with
  | nil => exact hx
  | cons b rest ih =>
    exact ih _ (process_one_processed_mono now priceOf acc b x hx)

theorem foldl_marks_processed (now : ℚ) (priceOf : String → Option ℚ)
    (l : List Alert) (acc : EngineState × List String) (a : Alert)
    (ha : a ∈ l) :
    a.id ∈ (l.foldl (process_one now priceOf) acc).1.processed_alerts := by
  induction l generalizing acc with
  | nil => cases ha
  | cons b rest ih =>
    rw [List.foldl_cons]
    rcases List.mem_cons.mp ha with hab | hmem
    · subst hab
      exact foldl_processed_mono now priceOf rest _ _
        (process_one_adds_id now priceOf acc a)
    · exact ih _ hmem

/-- Every alert of a cycle ends the cycle with its identifier in the
processed set, whatever the gate, price lookup and trade outcomes
were. -/
theorem cycle_marks_processed (e : EngineState) (now : ℚ)
    (alerts : List Alert) (priceOf : String → Option ℚ) (a : Alert)
    (ha : a ∈ alerts) :
    a.id ∈ (process_new_signals e now alerts priceOf).1.processed_alerts :=
  foldl_marks_processed now priceOf alerts (e, []) a ha

theorem foldl_no_reeval (now : ℚ) (priceOf : String → Option ℚ)
    (l : List Alert) (acc : EngineState × List String) (x : String)
    (hx : x ∈ acc.1.processed_alerts) (hx2 : x ∉ acc.2) :
    x ∉ (l.foldl (process_one now priceOf) acc).2 := by
  induction l generalizing acc with
  | nil => exact hx2
  | cons b rest ih =>
    rw [List.foldl_cons]
    refine ih _ (process_one_processed_mono now priceOf acc b x hx) ?_
    unfold process_one
    split
    · exact hx2
    · dsimp only
      intro hmem
      rcases List.mem_append.mp hmem with hmem | hmem
      · exact hx2 hmem
      · rcases List.mem_singleton.mp hmem with rfl
        exact absurd hx (by assumption)

/-- An identifier already in the processed set before a cycle is never
evaluated during that cycle: the processed-set check skips it. -/
theorem cycle_never_reevaluates (e : EngineState) (now : ℚ)
    (alerts : List Alert) (priceOf : String → Option ℚ) (a : Alert)
    (ha : a.id ∈ e.processed_alerts) :
    a.id ∉ (process_new_signals e now alerts priceOf).2 :=
  foldl_no_reeval now priceOf alerts (e, []) a.id ha (by simp)

theorem reachable_fresh10000 : Reachable fresh10000 :=
  Reachable.init 10000 (by norm_num)

theorem reachable_afterBuy1 : Reachable afterBuy1 :=
  Reachable.step fresh10000 buySOL100 500 reachable_fresh10000

theorem reachable_afterBuy2 : Reachable afterBuy2 :=
  Reachable.step afterBuy1 buySOL120 500 reachable_afterBuy1

/-! ## The claims -/

section
attribute [local semireducible] Rat.mul Rat.inv Rat.add Rat.sub

/-- C1 (amended): for every ledger state reachable by
`execute_virtual_trade` steps from a fresh ledger with non-negative
starting balance, the cash balance is non-negative and every stored
position has positive quantity.  The claim's stronger bound
`quantity > ε` fails on the code: buys perform no ε check (see the
counterexample). -/
theorem C1_amended_cash_nonneg_qty_pos (p : Portfolio)
    (hp : Reachable p) :
    0 ≤ p.cash_balance ∧ ∀ kv ∈ p.positions, 0 < kv.2.quantity :=
  ⟨(reachable_inv hp).cash_nonneg, (reachable_inv hp).qty_pos⟩

/-- C1 witness: the amended invariant evaluated on the concrete
reachable state after one $500 buy. -/
theorem C1_witness_afterBuy1 :
    0 ≤ afterBuy1.cash_balance ∧
      ∀ kv ∈ afterBuy1.positions, 0 < kv.2.quantity :=
  C1_amended_cash_nonneg_qty_pos afterBuy1 reachable_afterBuy1

/-- C1 counterexample: a reachable state — one `execute_virtual_trade`
buy of $0.001 of SOL at price $100 from a fresh $10,000 ledger — whose
position map holds SOL with quantity `0.00001 ≤ ε = 0.0001`, refuting
the claimed invariant `quantity > ε` and in particular the claim that
a buy with computed quantity at most ε cannot leave such a position in
the map. -/
theorem C1_counterexample_tiny_buy :
    Reachable afterTinyBuy ∧
    alookup afterTinyBuy.positions "SOL" =
      some ⟨1 / 100000, 100, 1 / 1000⟩ ∧
    ¬((1 : ℚ) / 10000 < (1 : ℚ) / 100000) :=
  ⟨Reachable.step fresh10000 buySOL100 (1 / 1000) reachable_fresh10000,
   by decide, by decide⟩

/-- C2 (amended): for every reachable ledger state, `totalTrades`
equals the number of trade records (buys and sells both increment it),
while `winningTrades + losingTrades` equals the number of SELL records
only; the two need not coincide. -/
theorem C2_amended_counters (p : Portfolio) (hp : Reachable p) :
    p.total_trades = p.trade_history.length ∧
    p.winning_trades + p.losing_trades =
      (p.trade_history.filter (fun r => r.side = Side.SELL)).length :=
  ⟨(reachable_inv hp).trades_len, (reachable_inv hp).win_loss⟩

/-- C2 witness: the amended counter equalities evaluated after one
buy. -/
theorem C2_witness_one_buy :
    afterBuy1.total_trades = afterBuy1.trade_history.length ∧
    afterBuy1.winning_trades + afterBuy1.losing_trades =
      (afterBuy1.trade_history.filter
        (fun r => r.side = Side.SELL)).length :=
  C2_amended_counters afterBuy1 reachable_afterBuy1

/-- C2 counterexample: after a single buy the state is reachable with
`totalTrades = 1` but `winningTrades + losingTrades = 0`, refuting the
claimed invariant `totalTrades = winningTrades + losingTrades`. -/
theorem C2_counterexample_one_buy :
    Reachable afterBuy1 ∧ afterBuy1.total_trades = 1 ∧
    afterBuy1.winning_trades + afterBuy1.losing_trades = 0 ∧
    afterBuy1.total_trades ≠
      afterBuy1.winning_trades + afterBuy1.losing_trades :=
  ⟨reachable_afterBuy1, by decide, by decide, by decide⟩

/-- C3 (amended): `execute_virtual_trade` never appends a snapshot —
the snapshot history is written only by `_update_portfolio_value`,
which the constructor alone calls; whenever `_update_portfolio_value`
runs it appends one snapshot and trims the history to the 30 most
recent entries; consequently every reachable state carries exactly the
one constructor snapshot. -/
theorem C3_amended_snapshots :
    (∀ (p : Portfolio) (sig : SignalData) (usd : ℚ),
      (execute_virtual_trade p sig usd).2.portfolio_history =
        p.portfolio_history) ∧
    (∀ (p : Portfolio) (prices : String → Option ℚ),
      (update_portfolio_value p prices).portfolio_history.length =
        min (p.portfolio_history.length + 1) 30) ∧
    (∀ p : Portfolio, Reachable p → p.portfolio_history.length = 1) :=
  ⟨evt_preserves_history, update_history_length,
   fun _ hp => (reachable_inv hp).hist_one⟩

/-- C3 witness: the amended statement evaluated on the concrete $500
buy step and the state after it. -/
theorem C3_witness_buy :
    (execute_virtual_trade fresh10000 buySOL100 500).2.portfolio_history =
      fresh10000.portfolio_history ∧
    afterBuy1.portfolio_history.length = 1 :=
  ⟨C3_amended_snapshots.1 fresh10000 buySOL100 500,
   C3_amended_snapshots.2.2 afterBuy1 reachable_afterBuy1⟩

/-- C3 counterexample: a successful buy from the fresh ledger leaves
the snapshot history exactly as it was (the single constructor
snapshot), refuting the claim that every successful `executeTrade`
call appends exactly one new snapshot. -/
theorem C3_counterexample_no_snapshot :
    (execute_virtual_trade fresh10000 buySOL100 500).1 =
      .success ⟨"SOL", .BUY, 5, 100, 500, 9500, none, none, none⟩ ∧
    afterBuy1.portfolio_history = fresh10000.portfolio_history ∧
    fresh10000.portfolio_history.length = 1 := by
  refine ⟨by decide, by decide, by decide⟩

/-- C4: in `AutoTradingEngine.__init__` the assignment
`self.stop_monitoring = False` (line 29) stores a boolean in the
instance dictionary under the same name as the `stop_monitoring`
method (line 45); Python attribute lookup resolves the instance entry
first, so `engine.stop_monitoring()` on any freshly constructed engine
calls a boolean and raises `TypeError` instead of stopping the
monitor. -/
theorem C4_stop_monitoring_shadowed :
    engineCallAttr engineInitDict "stop_monitoring" =
      .typeErrorNotCallable ∧
    alookup engineInitDict "stop_monitoring" = some (.pyBool false) ∧
    engineClassAttr "stop_monitoring" =
      some (.pyMethod "stop_monitoring") := by
  refine ⟨by decide, by decide, by decide⟩

/-- C5 (amended): the entry gate qualifies an alert if and only if the
confidence is at least the threshold, the kind is BUY or STRONG_BUY,
the position count is below the cap, the symbol is not held, and the
symbol's last trade — when there is one — is at least
`cooldownSeconds` old (elapsed time exactly equal to the cooldown
qualifies, because the source rejects only `elapsed < cooldown`). -/
theorem C5_amended_entry_gate_iff (e : EngineState) (now : ℚ)
    (a : Alert) :
    should_auto_trade e now a = true ↔
      (e.min_confidence_threshold ≤ a.confidence_score ∧
       (a.signal_type = SignalKind.BUY ∨
         a.signal_type = SignalKind.STRONG_BUY) ∧
       e.ledger.positions.length < e.max_positions ∧
       alookup e.ledger.positions a.symbol = none ∧
       (∀ t, alookup e.last_trade_times a.symbol = some t →
         e.cooldown_period ≤ now - t)) := by
  unfold should_auto_trade
  split
  next h1 =>
    exact iff_of_false (by simp) (fun h => absurd h.1 (not_le.mpr h1))
  next h1 =>
    split
    next h2 =>
      exact iff_of_false (by simp) (fun h => absurd h.2.1 h2)
    next h2 =>
      split
      next h3 =>
        exact iff_of_false (by simp)
          (fun h => absurd h.2.2.1 (not_lt.mpr h3))
      next h3 =>
        split
        next h4 =>
          refine iff_of_false (by simp) (fun h => ?_)
          rcases hl : alookup e.last_trade_times a.symbol with _ | t
          · rw [hl] at h4
            exact absurd h4 (by simp)
          · rw [hl] at h4
            exact absurd (h.2.2.2.2 t hl)
              (not_le.mpr (of_decide_eq_true h4))
        next h4 =>
          split
          next h5 =>
            refine iff_of_false (by simp) (fun h => ?_)
            rw [h.2.2.2.1] at h5
            simp at h5
          next h5 =>
            refine iff_of_true rfl
              ⟨not_lt.mp h1, not_not.mp h2, not_le.mp h3, ?_, ?_⟩
            · exact Option.not_isSome_iff_eq_none.mp h5
            · intro t hl
              rw [hl] at h4
              exact not_lt.mp (fun hlt => h4 (decide_eq_true hlt))

/-- C5 counterexample: an engine whose SOL position last traded at time
0 with the default 300-second cooldown, evaluated at `now = 300`: the
elapsed time equals the cooldown — it is not strictly more — yet the
gate qualifies the alert, refuting the claim's strict reading. -/
theorem C5_counterexample_exact_cooldown :
    should_auto_trade gateEngine 300 gateAlert = true ∧
    alookup gateEngine.last_trade_times "SOL" = some 0 ∧
    gateEngine.cooldown_period = 300 ∧
    ¬((300 : ℚ) - 0 > gateEngine.cooldown_period) := by
  refine ⟨by decide, by decide, by decide, by decide⟩

/-- C6 (amended): an unavailable price lookup makes the auto-trade a
no-op for that cycle, but the alert identifier is marked processed
regardless of the outcome, and an identifier in the processed set is
never evaluated again in any later cycle — the skipped signal is not
retried. -/
theorem C6_amended_no_retry :
    (∀ (e : EngineState) (now : ℚ) (a : Alert)
       (priceOf : String → Option ℚ), priceOf a.symbol = none →
       execute_auto_trade e now a priceOf = e) ∧
    (∀ (e : EngineState) (now : ℚ) (alerts : List Alert)
       (priceOf : String → Option ℚ) (a : Alert), a ∈ alerts →
       a.id ∈
         (process_new_signals e now alerts priceOf).1.processed_alerts) ∧
    (∀ (e : EngineState) (now : ℚ) (alerts : List Alert)
       (priceOf : String → Option ℚ) (a : Alert),
       a.id ∈ e.processed_alerts →
       a.id ∉ (process_new_signals e now alerts priceOf).2) :=
  ⟨exec_auto_trade_price_unavailable, cycle_marks_processed,
   cycle_never_reevaluates⟩

/-- C6 witness: the amended statement evaluated on the two concrete
poll cycles: the unavailable lookup changes nothing, the identifier is
processed after cycle one, and cycle two does not evaluate it. -/
theorem C6_witness_cycles :
    execute_auto_trade monEngine 0 gateAlert (fun _ => none) =
      monEngine ∧
    gateAlert.id ∈ cycle1.1.processed_alerts ∧
    gateAlert.id ∉ cycle2.2 :=
  ⟨C6_amended_no_retry.1 monEngine 0 gateAlert (fun _ => none) rfl,
   C6_amended_no_retry.2.1 monEngine 0 [gateAlert] (fun _ => none)
     gateAlert (List.mem_singleton.mpr rfl),
   C6_amended_no_retry.2.2 cycle1.1 30 [gateAlert] (fun _ => some 100)
     gateAlert (by decide)⟩

/-- C6 counterexample: the alert passes the gate in cycle one, its
price lookup is unavailable, and in cycle two — with the alert still
active under the same identifier and the price now available — the
engine evaluates nothing and its state is unchanged, refuting the
claim that the signal is retried in the next cycle. -/
theorem C6_counterexample_not_retried :
    should_auto_trade monEngine 0 gateAlert = true ∧
    cycle1.1.ledger = monEngine.ledger ∧
    cycle1.2 = ["a1"] ∧
    cycle2.2 = [] ∧
    cycle2.1 = cycle1.1 := by
  refine ⟨by decide, by decide, by decide, by decide, by decide⟩

/-- C7: on every reachable ledger state, a sell through
`execute_virtual_trade` of an unheld symbol fails with `NoPosition`
and returns the state unchanged, and a sell of a held position trades
exactly `min (usdSize / price) heldQuantity` — clamping an
over-request to the held amount — and leaves no negative-quantity
position behind. -/
theorem C7_sell_clamp_no_position (p : Portfolio) (sig : SignalData)
    (usd : ℚ) (hp : Reachable p)
    (hk : sig.signal = .SELL ∨ sig.signal = .AVOID)
    (hpr : 0 < sig.current_price.getD 0) (husd : 0 < usd) :
    (alookup p.positions sig.symbol = none →
      execute_virtual_trade p sig usd =
        (.failure (.noPosition sig.symbol), p)) ∧
    (∀ cur, alookup p.positions sig.symbol = some cur →
      (∃ r, (execute_virtual_trade p sig usd).1 = .success r ∧
        r.quantity =
          min (usd / sig.current_price.getD 0) cur.quantity) ∧
      (∀ pos',
        alookup (execute_virtual_trade p sig usd).2.positions
          sig.symbol = some pos' → 0 ≤ pos'.quantity)) := by
  have h1 : ¬(sig.current_price.getD 0 ≤ 0) := not_le.mpr hpr
  have h2 : ¬(usd ≤ 0) := not_le.mpr husd
  constructor
  · intro hl
    rw [evt_eq_sell p sig usd h1 h2 hk,
      execute_sell_eq_none _ _ _ _ hl]
  · intro cur hl
    have hca : 0 < cur.avg_price :=
      (reachable_inv hp).avg_pos (sig.symbol, cur) (alookup_mem hl)
    have havg : ¬(cur.avg_price = 0) := ne_of_gt hca
    rw [evt_eq_sell p sig usd h1 h2 hk,
      execute_sell_eq_some _ _ _ _ cur hl havg]
    dsimp only
    constructor
    · refine ⟨_, rfl, ?_⟩
      by_cases hqc : usd / sig.current_price.getD 0 > cur.quantity
      · rw [if_pos hqc, min_eq_right (le_of_lt hqc)]
      · rw [if_neg hqc, min_eq_left (not_lt.mp hqc)]
    · intro pos' hpos'
      by_cases hrem : cur.quantity -
          (if usd / sig.current_price.getD 0 > cur.quantity
           then cur.quantity
           else usd / sig.current_price.getD 0) ≤ 1 / 10000
      · rw [if_pos hrem, alookup_aerase_self] at hpos'
        cases hpos'
      · rw [if_neg hrem, alookup_aset_self] at hpos'
        cases hpos'
        have := lt_of_not_le hrem
        dsimp only
        linarith

/-- C7 witness: on the reachable 5-SOL ledger, selling unheld `ZZZ`
fails with `NoPosition` leaving the state untouched, and a $2000 sell
request at $150 against the 5-SOL position trades
`min (2000/150) 5 = 5`. -/
theorem C7_witness_concrete :
    execute_virtual_trade afterBuy1 sellZZZ 100 =
      (.failure (.noPosition "ZZZ"), afterBuy1) ∧
    (∃ r, (execute_virtual_trade afterBuy1 sellSOL150 2000).1 =
        .success r ∧
      r.quantity = min ((2000 : ℚ) / 150) 5) :=
  ⟨(C7_sell_clamp_no_position afterBuy1 sellZZZ 100
      reachable_afterBuy1 (Or.inl rfl) (by decide) (by decide)).1
      (by decide),
   ((C7_sell_clamp_no_position afterBuy1 sellSOL150 2000
      reachable_afterBuy1 (Or.inl rfl) (by decide) (by decide)).2
      ⟨5, 100, 500⟩ (by decide)).1⟩

/-- C8: on every reachable ledger state, each position satisfies
`totalCost = quantity * avgPrice` exactly (the embedding computes over
ℚ, so the floating tolerance is met with equality), and a sell step
never changes any surviving position's average price, never increases
its quantity, and leaves `totalCost = quantity * avgPrice` intact —
so `avgPrice` moves only on buys and a partial sell shrinks the
position proportionally. -/
theorem C8_total_cost_and_sell_avg (p : Portfolio) (hp : Reachable p) :
    (∀ kv ∈ p.positions,
      kv.2.total_cost = kv.2.quantity * kv.2.avg_price) ∧
    (∀ (sig : SignalData) (usd : ℚ),
      sig.signal = .SELL ∨ sig.signal = .AVOID →
      ∀ (s : String) (pos' : Position),
        alookup (execute_virtual_trade p sig usd).2.positions s =
          some pos' →
        ∃ pos, alookup p.positions s = some pos ∧
          pos'.avg_price = pos.avg_price ∧
          pos'.quantity ≤ pos.quantity ∧
          pos'.total_cost = pos'.quantity * pos'.avg_price) := by
  refine ⟨(reachable_inv hp).tc_eq, ?_⟩
  intro sig usd hk s pos' h
  obtain ⟨pos, hpos, havg, hle⟩ := sell_preserves_avg p sig usd hk s pos' h
  exact ⟨pos, hpos, havg, hle,
    (reachable_inv (Reachable.step p sig usd hp)).tc_eq (s, pos')
      (alookup_mem h)⟩

/-- C8 witness: the partial $300 sell of the 5-SOL position leaves the
position at quantity 2 with the average price still 100 and
`totalCost = 2 * 100`. -/
theorem C8_witness_partial_sell :
    ∃ pos, alookup afterBuy1.positions "SOL" = some pos ∧
      (⟨2, 100, 200⟩ : Position).avg_price = pos.avg_price ∧
      (⟨2, 100, 200⟩ : Position).quantity ≤ pos.quantity ∧
      (⟨2, 100, 200⟩ : Position).total_cost =
        (⟨2, 100, 200⟩ : Position).quantity *
          (⟨2, 100, 200⟩ : Position).avg_price :=
  (C8_total_cost_and_sell_avg afterBuy1 reachable_afterBuy1).2
    sellSOL100partial 300 (Or.inl rfl) "SOL" ⟨2, 100, 200⟩ (by decide)

/-- C9: the spec's round trip computed exactly over ℚ: buy $500 of SOL
at $100 (quantity 5, cash 9500, average price 100), buy $500 more at
$120 (quantity 55/6 ≈ 9.1667, average price 1200/11 ≈ 109.09 which
equals (500+500)/(5+500/120), cash 9000), sell everything at $150
(P&L exactly 375, cash 10375, position removed, `winningTrades`
incremented by one). -/
theorem C9_round_trip :
    alookup afterBuy1.positions "SOL" = some ⟨5, 100, 500⟩ ∧
    afterBuy1.cash_balance = 9500 ∧
    alookup afterBuy2.positions "SOL" =
      some ⟨55 / 6, 1200 / 11, 1000⟩ ∧
    afterBuy2.cash_balance = 9000 ∧
    (1200 : ℚ) / 11 = (500 + 500) / (5 + 500 / 120) ∧
    roundTripSell.1 = .success
      ⟨"SOL", .SELL, 55 / 6, 150, 1375, 10375, some 375, some (75 / 2),
       some 0⟩ ∧
    roundTripSell.2.cash_balance = 10375 ∧
    alookup roundTripSell.2.positions "SOL" = none ∧
    roundTripSell.2.winning_trades = afterBuy2.winning_trades + 1 := by
  refine ⟨by decide, by decide, by decide, by decide, by decide,
    by decide, by decide, by decide, by decide⟩

/-- C10: when the synchronous processor decides ACT: SELL it calls the
ledger's internal sell directly with the full held quantity and the
signal's `current_price` (the `avg_price` fallback applies only when
the key is absent), bypassing `execute_virtual_trade`'s validation: a
SELL signal carrying `current_price = 0` against the held 5-SOL
position executes, trades the full 5 units, credits zero proceeds and
books a loss, while the same signal through `execute_virtual_trade`
fails with `InvalidPrice`; with the key absent the sale uses the
average price 100 instead. -/
theorem C10_processor_sell_bypass :
    make_trade_decision procState sellZeroPrice = .actSell ∧
    (processor_execute_sell procState sellZeroPrice).1 = .success
      ⟨"SOL", .SELL, 5, 0, 0, 9500, some (-500), some (-100), some 0⟩ ∧
    (processor_execute_sell procState sellZeroPrice).2.cash_balance =
      afterBuy1.cash_balance ∧
    alookup (processor_execute_sell procState
      sellZeroPrice).2.positions "SOL" = none ∧
    (processor_execute_sell procState sellZeroPrice).2.losing_trades =
      afterBuy1.losing_trades + 1 ∧
    (execute_virtual_trade afterBuy1 sellZeroPrice 500).1 =
      .failure .invalidPrice ∧
    (processor_execute_sell procState sellAbsentPrice).1 = .success
      ⟨"SOL", .SELL, 5, 100, 500, 10000, some 0, some 0, some 0⟩ := by
  refine ⟨by decide, by decide, by decide, by decide, by decide,
    by decide, by decide⟩

end

end CryptoSniper
